import Mathlib

/-!
Verification of the cache-key derivation, storage backends and cache-aware
fetch orchestration of the node-fetch-cache repository.

The development shallowly embeds the two source modules
(`src/unnamed/part_000`, the TypeScript entry point, and
`src/commonjs/index.cjs`, the bundled CommonJS build).  JavaScript objects
are embedded as association lists with JavaScript insertion-order update
semantics, JavaScript strings as Lean `String`/`List Char`, undefined
values as `Option.none`, thrown exceptions as `Except.error`, and the
external collaborators (node crypto, cacache, locko, the HTTP transport,
the form-data package) as explicit parameters or transparent models noted
at their definitions.
-/

namespace NodeFetchCache

/-- Decidable equality for `Except` outcomes (used to evaluate the
theorems on concrete inputs). -/
instance {ε α : Type} [DecidableEq ε] [DecidableEq α] : DecidableEq (Except ε α) :=
  fun a b =>
    match a, b with
    | Except.ok x, Except.ok y =>
      if h : x = y then Decidable.isTrue (by rw [h])
      else Decidable.isFalse (by intro c; injection c; contradiction)
    | Except.error x, Except.error y =>
      if h : x = y then Decidable.isTrue (by rw [h])
      else Decidable.isFalse (by intro c; injection c; contradiction)
    | Except.ok _, Except.error _ => Decidable.isFalse (by intro c; cases c)
    | Except.error _, Except.ok _ => Decidable.isFalse (by intro c; cases c)

/-! ## Association-list object model

JavaScript object semantics used throughout: assigning `o[k] = v` keeps an
existing key at its original position and updates its value, otherwise
appends the key at the end; `delete o[k]` removes it. -/

/-- Assign key `k` to value `v`: update in place if present, else append
(JavaScript property-assignment order semantics). -/
def upsert {α : Type} (l : List (String × α)) (k : String) (v : α) : List (String × α) :=
  match l with
  | [] => [(k, v)]
  | (k', v') :: t => if k' = k then (k', v) :: t else (k', v') :: upsert t k v

/-- Look up the value of key `k` (first occurrence). -/
def lookupKey {α : Type} (k : String) : List (String × α) → Option α
  | [] => none
  | (k', v) :: t => if k' = k then some v else lookupKey k t

/-- Delete key `k` (all occurrences; well-formed objects hold each key once). -/
def eraseKey {α : Type} (k : String) : List (String × α) → List (String × α)
  | [] => []
  | (k', v) :: t => if k' = k then eraseKey k t else (k', v) :: eraseKey k t

/-- Model of `Object.fromEntries`: insert the pairs left to right, later
values for the same key overwriting earlier ones in place. -/
def objFromEntries {α : Type} (ps : List (String × α)) : List (String × α) :=
  ps.foldl (fun acc p => upsert acc p.1 p.2) []

/-! ## Global replace of a literal pattern

Models the JavaScript `str.replace(new RegExp(boundary, 'g'), '')` call in
`getFormDataCacheKey`: remove every leftmost, non-overlapping occurrence of
the literal pattern.  Implemented structurally on the character list (the
`skip` counter consumes the remaining matched characters) so that it
evaluates by reduction. -/

/-- Worker for `stripAll`: while `skip > 0`, drop characters belonging to a
match already recognised; at `skip = 0`, test for a match at the current
position. -/
def stripGo (pat : List Char) : Nat → List Char → List Char
  | _, [] => []
  | skip+1, _ :: rest => stripGo pat skip rest
  | 0, c :: rest =>
    if 0 < pat.length ∧ (c :: rest).take pat.length = pat then
      stripGo pat (pat.length - 1) rest
    else
      c :: stripGo pat 0 rest

/-- Remove every leftmost, non-overlapping occurrence of `pat` from `s`
(the semantics of a global regex replace of a literal pattern by the empty
string). -/
def stripAll (pat s : List Char) : List Char :=
  stripGo pat 0 s

/-! ## Request bodies and multipart form data

The form-data package (external) represents a multipart body as an object
with a private `_boundary` string and a `_streams` array whose elements are
either strings (headers and textual field content, with the boundary token
spliced in) or non-string stream objects (file parts).  `FormDataModel`
embeds exactly the two fields the source reads; stream parts carry an
identifier standing for the underlying stream object. -/

/-- One element of a form-data `_streams` array: a string (as a character
list) or a non-string stream object identified by `id`. -/
inductive StreamPart where
  | str (s : List Char)
  | obj (id : Nat)
  deriving DecidableEq

/-- The fields of a form-data instance read by `getFormDataCacheKey`. -/
structure FormDataModel where
  boundary : List Char
  streams : List StreamPart
  deriving DecidableEq

/-- Request body shapes distinguished by `getBodyCacheKeyJson`'s dynamic
dispatch.  `jsUndefined` and `jsNull` are both falsy; `plainObj` is the
plain object produced by `getFormDataCacheKey` (a spread copy of a
form-data instance, no longer answering `[object FormData]` to
`toString`). -/
inductive Body where
  | jsUndefined
  | jsNull
  | str (s : String)
  | urlParams (s : String)
  | fileStream (path : String)
  | formData (fd : FormDataModel)
  | buffer (s : String)
  | plainObj (streams : List StreamPart)
  deriving DecidableEq

/-- The error message thrown by `getBodyCacheKeyJson` for an unrecognised
body shape (source: part_000 line 102, index.cjs line 260). -/
def unsupportedBodyTypeMsg : String :=
  "Unsupported body type. Supported body types are: string, number, undefined, null, url.URLSearchParams, fs.ReadStream, FormData"

/-- Embedding of `getFormDataCacheKey`: spread-copy the form-data object,
delete `_boundary`, and strip every occurrence of the boundary token from
each string element of `_streams` (non-string elements pass through).  The
result is the plain object's remaining payload, the `_streams` array. -/
def getFormDataCacheKey (fd : FormDataModel) : List StreamPart :=
  fd.streams.map (fun s =>
    match s with
    | StreamPart.str t => StreamPart.str (stripAll fd.boundary t)
    | StreamPart.obj i => StreamPart.obj i)

/-- Embedding of `getBodyCacheKeyJson`: falsy bodies pass through, strings
pass through, `URLSearchParams` serialises via `toString`, an
`fs.ReadStream` is identified by its `path`, a form-data instance goes
through `getFormDataCacheKey`, a `Buffer` decodes to its string form, and
anything else (including the plain object a previous application produced)
throws the unsupported-body-type error. -/
def getBodyCacheKeyJson : Body → Except String Body
  | Body.jsUndefined => Except.ok Body.jsUndefined
  | Body.jsNull => Except.ok Body.jsNull
  | Body.str s => Except.ok (Body.str s)
  | Body.urlParams s => Except.ok (Body.str s)
  | Body.fileStream p => Except.ok (Body.str p)
  | Body.formData fd => Except.ok (Body.plainObj (getFormDataCacheKey fd))
  | Body.buffer s => Except.ok (Body.str s)
  | Body.plainObj _ => Except.error unsupportedBodyTypeMsg

/-- Lower-case a string character by character (the behaviour of
JavaScript `toLowerCase` on ASCII header names; defined over the character
list so that it evaluates by kernel reduction). -/
def lowerStr (s : String) : String :=
  String.mk (s.data.map Char.toLower)

/-! ## Key flags

`key_flags` is module-global mutable state; every function below threads it
explicitly.  The `headers` flag is `Boolean | Object` in the source: a
per-header-name inclusion map is an object, and an object is truthy in
JavaScript regardless of its contents. -/

/-- The value of the `headers` key flag: a boolean, or a per-header-name
inclusion map. -/
inductive HeadersFlag where
  | bool (b : Bool)
  | omap (m : List (String × Bool))
  deriving DecidableEq

/-- JavaScript truthiness of a `headers` flag value (objects are truthy). -/
def HeadersFlag.truthy : HeadersFlag → Bool
  | HeadersFlag.bool b => b
  | HeadersFlag.omap _ => true

/-- The `KeyFlags` configuration object: one boolean per request field,
plus the `headers` flag which may be an inclusion map. -/
structure KeyFlags where
  cache : Bool
  credentials : Bool
  destination : Bool
  headers : HeadersFlag
  integrity : Bool
  method : Bool
  redirect : Bool
  referrer : Bool
  referrerPolicy : Bool
  url : Bool
  body : Bool
  deriving DecidableEq

/-- `DEFAULT_KEY_FLAGS` as initialised at module load: every flag `true`. -/
def DEFAULT_KEY_FLAGS : KeyFlags :=
  { cache := true, credentials := true, destination := true,
    headers := HeadersFlag.bool true, integrity := true, method := true,
    redirect := true, referrer := true, referrerPolicy := true,
    url := true, body := true }

/-! ## Header cache-key JSON

The two source variants differ here: part_000's `getHeadersCacheKeyJson`
additionally filters by the `headers` inclusion map; the index.cjs build
only strips the `only-if-cached` directive. -/

/-- The two source variants of the module. -/
inductive Variant where
  | ts
  | cjs
  deriving DecidableEq

/-- Filter clause of part_000's `getHeadersCacheKeyJson`: include the
header when the flag is a boolean, or when the inclusion map has no entry
for the name, or when its entry is true. -/
def headerFlagAdmits (hf : HeadersFlag) (k : String) : Bool :=
  match hf with
  | HeadersFlag.bool _ => true
  | HeadersFlag.omap m =>
    match lookupKey k m with
    | none => true
    | some b => b

/-- Embedding of `getHeadersCacheKeyJson`: lower-case every header name,
drop a `cache-control: only-if-cached` pair, apply the variant-specific
inclusion-map filter, and rebuild the object with `Object.fromEntries`. -/
def getHeadersCacheKeyJson (v : Variant) (flags : KeyFlags)
    (headersObj : List (String × String)) : List (String × String) :=
  objFromEntries
    ((headersObj.map (fun p => (lowerStr p.1, p.2))).filter (fun p =>
      (!(p.1 = "cache-control" ∧ p.2 = "only-if-cached" : Bool)) &&
      (match v with
       | Variant.ts => headerFlagAdmits flags.headers p.1
       | Variant.cjs => true)))

/-! ## Requests and init objects

A node-fetch `Request` always carries (possibly empty-string) values for
the cache-relevant fields and a `Headers` object whose entries iterate with
lower-cased names.  `ReqLike` uses `Option` for every field so that the
synthetic object part_000 builds for a bare URL — which has only `url` —
is also expressible; a missing field reads as JavaScript `undefined`. -/

/-- An object passed to `getRequestCacheKey`: either a real `Request` (all
fields present) or part_000's synthetic bare-URL object (only `url`). -/
structure ReqLike where
  cache : Option String := none
  credentials : Option String := none
  destination : Option String := none
  headers : Option (List (String × String)) := none
  integrity : Option String := none
  method : Option String := none
  redirect : Option String := none
  referrer : Option String := none
  referrerPolicy : Option String := none
  url : Option String := none
  body : Body := Body.jsUndefined
  deriving DecidableEq

/-- The first argument of the fetch call: a bare URL string or a structured
`Request` object. -/
inductive Resource where
  | url (u : String)
  | request (r : ReqLike)
  deriving DecidableEq

/-- The `init` argument.  The source spreads every own field of `init` into
the hashed structure; the embedding carries the fields the library itself
reads (`headers`, `body`, the deleted `agent`) plus `method` as the
representative pass-through field. `none` is an absent field. -/
structure Init where
  method : Option String := none
  headers : Option (List (String × String)) := none
  body : Option Body := none
  agent : Option String := none
  deriving DecidableEq

/-! ## JSON values and serialisation

`JSON.stringify` over the values this module builds.  `jundef` embeds
JavaScript `undefined`: dropped as an object field, rendered `null` inside
an array.  Serialisation recurses on an explicit depth fuel so that it is
structurally recursive and evaluates by reduction; every value built here
has depth below any fuel used. -/

/-- JSON-ish value tree (with JavaScript `undefined` as `jundef`). -/
inductive Jx where
  | jnull
  | jundef
  | jstr (s : String)
  | jnum (n : Int)
  | jarr (xs : List Jx)
  | jobj (fields : List (String × Jx))

/-- Escape a character for a JSON string literal (quote and backslash; the
values built by this module contain no control characters). -/
def escChar (c : Char) : String :=
  if c = '"' then "\\\"" else if c = '\\' then "\\\\" else String.singleton c

/-- Escape a string for inclusion in a JSON string literal. -/
def escapeJson (s : String) : String :=
  String.join (s.data.map escChar)

/-- Render a JSON string literal. -/
def jquote (s : String) : String :=
  "\"" ++ escapeJson s ++ "\""

/-- Depth-fuelled `JSON.stringify`. Object fields bound to `jundef` are
dropped; `jundef` array elements render as `null`. -/
def stringifyFuel : Nat → Jx → String
  | 0, _ => ""
  | _+1, Jx.jnull => "null"
  | _+1, Jx.jundef => "null"
  | _+1, Jx.jstr s => jquote s
  | _+1, Jx.jnum n => toString n
  | n+1, Jx.jarr xs =>
    "[" ++ String.intercalate "," (xs.map (fun x => stringifyFuel n x)) ++ "]"
  | n+1, Jx.jobj fs =>
    "\x7b" ++
      String.intercalate ","
        ((fs.filter (fun f =>
            match f.2 with
            | Jx.jundef => false
            | _ => true)).map
          (fun f => jquote f.1 ++ ":" ++ stringifyFuel n f.2)) ++
    "\x7d"

/-- `JSON.stringify` at a fuel exceeding the depth of every value this
module constructs. -/
def jsonStringify (j : Jx) : String :=
  stringifyFuel 32 j

/-- Model of the `md5` helper.  The real function digests with node's
crypto module (an external collaborator); the model keeps the serialised
string itself, which preserves equality exactly and distinctness under the
collision-freedom the spec assumes of the digest. -/
def md5 (s : String) : String :=
  "md5:" ++ s

/-! ## The resource cache-key JSON -/

/-- The error raised when `getRequestCacheKey` dereferences the missing
`headers` of part_000's synthetic bare-URL object. -/
def headersTypeErrorMsg : String :=
  "TypeError: Cannot read properties of undefined (reading 'entries')"

/-- Value of the `headers` field of the resource cache-key object: the
filtered header object when the flag is truthy, the empty string when it is
off. -/
inductive HdrsOrStr where
  | obj (l : List (String × String))
  | emptyStr
  deriving DecidableEq

/-- Gate a request field by its key flag: flag on passes the field value
through (possibly `undefined`), flag off yields the empty string. -/
def gateField (flag : Bool) (v : Option String) : Option String :=
  if flag then v else some ""

/-- The object literal built by `getRequestCacheKey` (fields in source
order `cache, credentials, destination, headers, integrity, method,
redirect, referrer, referrerPolicy, url, body`). -/
structure ResourceKeyJson where
  cache : Option String
  credentials : Option String
  destination : Option String
  headers : HdrsOrStr
  integrity : Option String
  method : Option String
  redirect : Option String
  referrer : Option String
  referrerPolicy : Option String
  url : Option String
  body : Body
  deriving DecidableEq

/-- Embedding of `getRequestCacheKey`: read the header entries (throwing
the TypeError a real run raises when the argument has no `headers`), then
build the gated field object; the body field normalises through
`getBodyCacheKeyJson` when the `body` flag is on and may throw. -/
def getRequestCacheKey (v : Variant) (flags : KeyFlags) (req : ReqLike) :
    Except String ResourceKeyJson :=
  match req.headers with
  | none => Except.error headersTypeErrorMsg
  | some hs =>
    let headersPojo := objFromEntries hs
    match (if flags.body then getBodyCacheKeyJson req.body else Except.ok (Body.str "")) with
    | Except.error e => Except.error e
    | Except.ok b =>
      Except.ok
        { cache := gateField flags.cache req.cache,
          credentials := gateField flags.credentials req.credentials,
          destination := gateField flags.destination req.destination,
          headers :=
            if flags.headers.truthy then
              HdrsOrStr.obj (getHeadersCacheKeyJson v flags headersPojo)
            else HdrsOrStr.emptyStr,
          integrity := gateField flags.integrity req.integrity,
          method := gateField flags.method req.method,
          redirect := gateField flags.redirect req.redirect,
          referrer := gateField flags.referrer req.referrer,
          referrerPolicy := gateField flags.referrerPolicy req.referrerPolicy,
          url := gateField flags.url req.url,
          body := b }

/-! ## JSON rendering of the hashed structures -/

/-- JSON of a `_streams` element: strings serialise as JSON strings; a
non-string stream part abstracts to an object carrying its identifier
(standing for the stream object's own enumerable properties). -/
def streamPartToJx : StreamPart → Jx
  | StreamPart.str cs => Jx.jstr (String.mk cs)
  | StreamPart.obj i => Jx.jobj [("streamId", Jx.jnum i)]

/-- JSON of a (normalised) body value.  After normalisation only
`jsUndefined`, `jsNull`, `str` and `plainObj` occur; the raw shapes are
given their JavaScript serialisations for totality (`URLSearchParams`,
streams and form-data instances stringify as plain objects). -/
def bodyToJx : Body → Jx
  | Body.jsUndefined => Jx.jundef
  | Body.jsNull => Jx.jnull
  | Body.str s => Jx.jstr s
  | Body.plainObj streams => Jx.jobj [("_streams", Jx.jarr (streams.map streamPartToJx))]
  | Body.urlParams _ => Jx.jobj []
  | Body.fileStream _ => Jx.jobj []
  | Body.formData _ => Jx.jobj []
  | Body.buffer _ => Jx.jobj []

/-- JSON of an optional (possibly `undefined`) string field. -/
def optStrToJx : Option String → Jx
  | none => Jx.jundef
  | some s => Jx.jstr s

/-- JSON of a header object. -/
def headersObjToJx (l : List (String × String)) : Jx :=
  Jx.jobj (l.map (fun p => (p.1, Jx.jstr p.2)))

/-- JSON of the `headers` field of the resource cache-key object. -/
def hdrsOrStrToJx : HdrsOrStr → Jx
  | HdrsOrStr.obj l => headersObjToJx l
  | HdrsOrStr.emptyStr => Jx.jstr ""

/-- JSON of the resource cache-key object (source field order). -/
def resourceKeyJsonToJx (r : ResourceKeyJson) : Jx :=
  Jx.jobj
    [("cache", optStrToJx r.cache),
     ("credentials", optStrToJx r.credentials),
     ("destination", optStrToJx r.destination),
     ("headers", hdrsOrStrToJx r.headers),
     ("integrity", optStrToJx r.integrity),
     ("method", optStrToJx r.method),
     ("redirect", optStrToJx r.redirect),
     ("referrer", optStrToJx r.referrer),
     ("referrerPolicy", optStrToJx r.referrerPolicy),
     ("url", optStrToJx r.url),
     ("body", bodyToJx r.body)]

/-- Build the `initCacheKeyJson` object: spread the present fields of
`init` in property order, overwrite (or append) `headers` with `hdrVal`,
assign the normalised `body`, then delete `agent`. -/
def initKeyJsonFields (init : Init) (hdrVal : Jx) (bodyJx : Jx) :
    List (String × Jx) :=
  let base : List (String × Jx) :=
    (match init.method with | some m => [("method", Jx.jstr m)] | none => []) ++
    (match init.headers with | some _ => [("headers", Jx.jnull)] | none => []) ++
    (match init.body with | some b => [("body", bodyToJx b)] | none => []) ++
    (match init.agent with | some a => [("agent", Jx.jstr a)] | none => [])
  eraseKey "agent" (upsert (upsert base "headers" hdrVal) "body" bodyJx)

/-- Embedding of part_000's `getCacheKey` (lines 123-139): a structured
request goes through `getRequestCacheKey`; a bare URL is wrapped as the
synthetic `\x7b url \x7d` object and sent through `getRequestCacheKey`
too (where it throws on the missing `headers`).  The init object's
`headers` field is gated by the headers flag; the resource body is
normalised a second time; `agent` is deleted; the pair plus the cache
version digest to the key. -/
def getCacheKeyTs (flags : KeyFlags) (resource : Resource) (init : Init) :
    Except String String :=
  match (match resource with
         | Resource.request r => getRequestCacheKey Variant.ts flags r
         | Resource.url u => getRequestCacheKey Variant.ts flags { url := some u }) with
  | Except.error e => Except.error e
  | Except.ok rj =>
    let hdrVal : Jx :=
      if flags.headers.truthy then
        headersObjToJx (getHeadersCacheKeyJson Variant.ts flags (init.headers.getD []))
      else Jx.jstr ""
    match getBodyCacheKeyJson rj.body with
    | Except.error e => Except.error e
    | Except.ok rjBody =>
      match getBodyCacheKeyJson (init.body.getD Body.jsUndefined) with
      | Except.error e => Except.error e
      | Except.ok initBody =>
        Except.ok (md5 (jsonStringify (Jx.jarr
          [resourceKeyJsonToJx { rj with body := rjBody },
           Jx.jobj (initKeyJsonFields init hdrVal (bodyToJx initBody)),
           Jx.jnum 4])))

/-- Resource cache-key JSON of the index.cjs variant: a full
`getRequestCacheKey` object for a structured request, or the two-field
bare-URL object `\x7b url, body \x7d` (`body` assigned afterwards). -/
inductive ResJsonCjs where
  | full (rj : ResourceKeyJson)
  | bare (u : String) (b : Body)
  deriving DecidableEq

/-- JSON of the index.cjs resource cache-key value. -/
def resJsonCjsToJx : ResJsonCjs → Jx
  | ResJsonCjs.full rj => resourceKeyJsonToJx rj
  | ResJsonCjs.bare u b => Jx.jobj [("url", Jx.jstr u), ("body", bodyToJx b)]

/-- Embedding of the index.cjs `getCacheKey` (lines 281-297): a bare URL
becomes the plain `\x7b url \x7d` object (no `getRequestCacheKey` call);
the init `headers` always go through the cjs `getHeadersCacheKeyJson`
(no flag gating); bodies normalise as in the TypeScript variant. -/
def getCacheKeyCjs (flags : KeyFlags) (resource : Resource) (init : Init) :
    Except String String :=
  match (match resource with
         | Resource.request r => (getRequestCacheKey Variant.cjs flags r).map ResJsonCjs.full
         | Resource.url u => Except.ok (ResJsonCjs.bare u Body.jsUndefined)) with
  | Except.error e => Except.error e
  | Except.ok rj =>
    let hdrVal : Jx :=
      headersObjToJx (getHeadersCacheKeyJson Variant.cjs flags (init.headers.getD []))
    match (match rj with
           | ResJsonCjs.full r => (getBodyCacheKeyJson r.body).map (fun b => ResJsonCjs.full { r with body := b })
           | ResJsonCjs.bare u b => (getBodyCacheKeyJson b).map (ResJsonCjs.bare u)) with
    | Except.error e => Except.error e
    | Except.ok rj2 =>
      match getBodyCacheKeyJson (init.body.getD Body.jsUndefined) with
      | Except.error e => Except.error e
      | Except.ok initBody =>
        Except.ok (md5 (jsonStringify (Jx.jarr
          [resJsonCjsToJx rj2,
           Jx.jobj (initKeyJsonFields init hdrVal (bodyToJx initBody)),
           Jx.jnum 4])))

/-! ## The only-if-cached directive -/

/-- Model of node-fetch `Headers.get`: case-insensitive lookup of the first
matching entry (the claims use single-valued headers). -/
def headersGet (h : Option (List (String × String))) (name : String) : Option String :=
  match h with
  | none => none
  | some l => lookupKey (lowerStr name) (l.map (fun p => (lowerStr p.1, p.2)))

/-- Embedding of `hasOnlyWithCacheOption`: true when `init.headers` holds a
`cache-control: only-if-cached` pair (name compared case-insensitively,
value exactly), or when the structured request's headers answer
`only-if-cached` for `Cache-Control`. -/
def hasOnlyWithCacheOption (resource : Resource) (init : Option Init) : Bool :=
  (match init with
   | some i =>
     match i.headers with
     | some hs =>
       hs.any (fun p => (lowerStr p.1 = "cache-control" ∧ p.2 = "only-if-cached" : Bool))
     | none => false
   | none => false) ||
  (match resource with
   | Resource.request r => headersGet r.headers "Cache-Control" = some "only-if-cached"
   | Resource.url _ => false)

/-! ## Response metadata -/

/-- The metadata object assembled by
`NFCResponse.serializeMetaFromNodeFetchResponse` and stored alongside a
body (`headers` is `Headers.raw()`: name to value list). -/
structure MetaData where
  url : String
  status : Nat
  statusText : String
  headers : List (String × List String)
  size : Nat
  timeout : Nat
  counter : Nat
  deriving DecidableEq

/-- A transport (node-fetch) response: the metadata source fields plus the
single-use body stream, embedded as its byte sequence. -/
structure FetchResp where
  url : String
  status : Nat
  statusText : String
  headers : List (String × List String)
  size : Nat
  timeout : Nat
  counter : Nat
  body : List Nat
  deriving DecidableEq

/-- Embedding of `NFCResponse.serializeMetaFromNodeFetchResponse`. -/
def serializeMetaFromNodeFetchResponse (r : FetchResp) : MetaData :=
  { url := r.url, status := r.status, statusText := r.statusText,
    headers := r.headers, size := r.size, timeout := r.timeout,
    counter := r.counter }

/-- What a store `get`/`set` hands back: a body stream (as the byte
sequence it yields) and the metadata. -/
structure CachedData where
  bodyStream : List Nat
  metaData : MetaData
  deriving DecidableEq

/-! ## MemoryCache

State: the key-to-entry mapping plus the `KeyTimeout` table of pending
removal timers, recorded as absolute fire times (`setTimeout(cb, ttl)`
issued at time `now` fires at `now + ttl`).  `fireDue` runs every timer
whose fire time has been reached; its callback is `() => this.remove(key)`
and a fired timer's handle is spent, so `remove`'s erasure also covers
it. -/

/-- A MemoryCache entry: the fully buffered body plus metadata. -/
structure MemEntry where
  bodyBuffer : List Nat
  metaData : MetaData
  deriving DecidableEq

/-- MemoryCache state: entry map and pending removal timers (absolute fire
times). -/
structure MemState where
  cache : List (String × MemEntry)
  timers : List (String × Int)
  deriving DecidableEq

/-- Embedding of `MemoryCache.get`: wrap the stored buffer as a fresh
stream (`stream.Readable.from(bodyBuffer)` yields exactly the buffer's
bytes). -/
def memGet (s : MemState) (key : String) : Option CachedData :=
  (lookupKey key s.cache).map (fun e => { bodyStream := e.bodyBuffer, metaData := e.metaData })

/-- Embedding of `MemoryCache.remove`: clear the key's timer and delete the
entry. -/
def memRemove (s : MemState) (key : String) : MemState :=
  { cache := eraseKey key s.cache, timers := eraseKey key s.timers }

/-- Embedding of `MemoryCache.set` at time `now`: buffer the body, store
the entry, and when a numeric TTL is configured (re)schedule the removal
timer through `KeyTimeout.updateTimeout` (clearing any pending timer for
the key); finally return `this.get(key)`. -/
def memSet (ttl : Option Int) (now : Int) (s : MemState) (key : String)
    (bodyBytes : List Nat) (meta : MetaData) : MemState × Option CachedData :=
  let s1 : MemState := { s with cache := upsert s.cache key { bodyBuffer := bodyBytes, metaData := meta } }
  let s2 : MemState :=
    match ttl with
    | some t => { s1 with timers := upsert s1.timers key (now + t) }
    | none => s1
  (s2, memGet s2 key)

/-- One timer considered by the scheduler at time `now`: if its fire time
has been reached, its callback `() => this.remove(key)` runs. -/
def fireStep (now : Int) (acc : MemState) (p : String × Int) : MemState :=
  if p.2 ≤ now then memRemove acc p.1 else acc

/-- Fire every pending timer whose fire time is at or before `now`; each
firing runs `remove` for its key. -/
def fireDue (s : MemState) (now : Int) : MemState :=
  s.timers.foldl (fireStep now) s

/-! ## FileSystemCache

cacache (external) is modelled as content-addressed storage whose
integrity token is the stored byte sequence itself (a perfect digest), so
`get.byDigest` is the identity on tokens; the index maps cache keys to
their committed payloads.  A cacache `put` is atomic: on failure nothing
is committed.  Failures of the two external writes are injected through
the `bodyPutErr`/`metaPutErr` parameters; a zero-byte body stream makes
`put.stream` fail with `ENODATA`, which `set` catches and records as the
`empty` flag. -/

/-- The metadata JSON document `FileSystemCache.set` persists: the caller's
metadata plus the internal-only fields `expiration`,
`bodyStreamIntegrity` and `empty`. -/
structure StoredMeta where
  meta : MetaData
  expiration : Option Int := none
  bodyStreamIntegrity : Option (List Nat) := none
  empty : Option Bool := none
  deriving DecidableEq

/-- FileSystemCache state: the cacache index, split by the two key suffixes
(`<key>meta` documents and `<key>body` blobs). -/
structure FsState where
  metas : List (String × StoredMeta)
  bodies : List (String × List Nat)
  deriving DecidableEq

/-- Embedding of `FileSystemCache.get` at time `now`: miss when the meta
document is absent; parse it, strip the three internal fields, treat a
truthy elapsed `expiration` as a miss (the stale entry is only masked — no
write happens), and otherwise reconstruct the body from the integrity
token (or a zero-length stream under the `empty` flag). -/
def fsGet (now : Int) (s : FsState) (key : String) : Option CachedData :=
  match lookupKey (key ++ "meta") s.metas with
  | none => none
  | some sm =>
    if (match sm.expiration with
        | some e => (¬ e = 0 ∧ e < now : Bool)
        | none => false) then none
    else
      some { bodyStream := if sm.empty.getD false then [] else sm.bodyStreamIntegrity.getD [],
             metaData := sm.meta }

/-- Embedding of `FileSystemCache.remove`: delete both cacache entries. -/
def fsRemove (s : FsState) (key : String) : FsState :=
  { metas := eraseKey (key ++ "meta") s.metas,
    bodies := eraseKey (key ++ "body") s.bodies }

/-- Shared tail of `FileSystemCache.set`: persist the metadata document
(unless the injected meta-write failure fires) and return `this.get(key)`. -/
def fsWriteMeta (now : Int) (metaPutErr : Option String) (s : FsState)
    (key : String) (metaCopy : StoredMeta) : FsState × Except String (Option CachedData) :=
  match metaPutErr with
  | some e => (s, Except.error e)
  | none =>
    let s2 : FsState := { s with metas := upsert s.metas (key ++ "meta") metaCopy }
    (s2, Except.ok (fsGet now s2 key))

/-- Embedding of `FileSystemCache.set` at time `now`: extend the metadata
with `expiration` when a numeric TTL is configured; stream the body into
cacache (an injected failure propagates with nothing committed; a
zero-byte stream raises `ENODATA`, caught and recorded as `empty` instead
of an integrity token); then write the metadata document and return a
fresh read. -/
def fsSet (ttl : Option Int) (now : Int) (bodyPutErr metaPutErr : Option String)
    (s : FsState) (key : String) (bodyBytes : List Nat) (meta : MetaData) :
    FsState × Except String (Option CachedData) :=
  let metaCopy0 : StoredMeta := { meta := meta, expiration := ttl.map (fun t => now + t) }
  match bodyPutErr with
  | some e => (s, Except.error e)
  | none =>
    if bodyBytes = [] then
      fsWriteMeta now metaPutErr s key { metaCopy0 with empty := some true }
    else
      fsWriteMeta now metaPutErr
        { s with bodies := upsert s.bodies (key ++ "body") bodyBytes }
        key { metaCopy0 with bodyStreamIntegrity := some bodyBytes }

/-! ## The orchestrator

`getResponse` composed with the index.cjs argument plumbing
(`getCacheKey(...requestArguments)`).  The store is abstracted behind
`StoreOps` so the theorems cover both backends; concurrency is captured by
observing the store at two instants: `s0` at the initial check and `s1`
after the single-flight lock is acquired (other tasks may have written in
between).  The lock itself (locko, external) is recorded as the
`lockTaken`/`lockReleased` observations; the `finally` block makes every
exit from the critical section release. -/

/-- A store backend as consumed by `getResponse`. -/
structure StoreOps (σ : Type) where
  get : σ → String → Option CachedData
  set : σ → String → List Nat → MetaData → σ × Except String (Option CachedData)
  remove : σ → String → σ

/-- An `NFCResponse` as observed by the caller: body, metadata and the
`fromCache` provenance flag. -/
structure NFC where
  bodyStream : List Nat
  metaData : MetaData
  fromCache : Bool
  deriving DecidableEq

/-- Observable outcome of one `getResponse` call: final store state, the
returned value or propagated error, the number of transport invocations,
and whether the single-flight lock was taken and released. -/
structure GetResponseOut (σ : Type) where
  state : σ
  result : Except String (Option NFC)
  transportCalls : Nat
  lockTaken : Bool
  lockReleased : Bool

/-- The TypeError a real run raises when `set` returns `undefined` and the
orchestrator reads `.bodyStream` off it. -/
def undefinedBodyStreamMsg : String :=
  "TypeError: Cannot read properties of undefined (reading 'bodyStream')"

/-- Embedding of `getResponse` (index.cjs lines 316-365): derive the key;
return a hit wrapped with `fromCache = true` without locking; return
`undefined` on an only-if-cached miss; otherwise lock, re-check (against
`s1`, the state after acquisition), and on a genuine miss invoke the
transport once, store the response, and wrap the store's materialisation
with `fromCache = false`; the `finally` releases the lock on every exit
from the critical section. -/
def getResponse {σ : Type} (ops : StoreOps σ) (s0 s1 : σ)
    (transport : Except String FetchResp) (flags : KeyFlags)
    (resource : Resource) (init : Option Init) : GetResponseOut σ :=
  match getCacheKeyCjs flags resource (init.getD {}) with
  | Except.error e =>
    { state := s0, result := Except.error e, transportCalls := 0,
      lockTaken := false, lockReleased := false }
  | Except.ok cacheKey =>
    match ops.get s0 cacheKey with
    | some cv =>
      { state := s0,
        result := Except.ok (some { bodyStream := cv.bodyStream, metaData := cv.metaData, fromCache := true }),
        transportCalls := 0, lockTaken := false, lockReleased := false }
    | none =>
      if hasOnlyWithCacheOption resource init then
        { state := s0, result := Except.ok none, transportCalls := 0,
          lockTaken := false, lockReleased := false }
      else
        match ops.get s1 cacheKey with
        | some cv =>
          { state := s1,
            result := Except.ok (some { bodyStream := cv.bodyStream, metaData := cv.metaData, fromCache := true }),
            transportCalls := 0, lockTaken := true, lockReleased := true }
        | none =>
          match transport with
          | Except.error e =>
            { state := s1, result := Except.error e, transportCalls := 1,
              lockTaken := true, lockReleased := true }
          | Except.ok resp =>
            match ops.set s1 cacheKey resp.body (serializeMetaFromNodeFetchResponse resp) with
            | (s2, Except.error e) =>
              { state := s2, result := Except.error e, transportCalls := 1,
                lockTaken := true, lockReleased := true }
            | (s2, Except.ok none) =>
              { state := s2, result := Except.error undefinedBodyStreamMsg,
                transportCalls := 1, lockTaken := true, lockReleased := true }
            | (s2, Except.ok (some newly)) =>
              { state := s2,
                result := Except.ok (some { bodyStream := newly.bodyStream, metaData := newly.metaData, fromCache := false }),
                transportCalls := 1, lockTaken := true, lockReleased := true }

/-- MemoryCache as a `StoreOps` backend (its `set` never throws: the body
is already materialised as bytes). -/
def memOps (ttl : Option Int) (now : Int) : StoreOps MemState :=
  { get := memGet,
    set := fun s k b m =>
      let r := memSet ttl now s k b m
      (r.1, Except.ok r.2),
    remove := memRemove }

/-- FileSystemCache as a `StoreOps` backend, with the injected external
write failures. -/
def fsOps (ttl : Option Int) (now : Int) (bodyPutErr metaPutErr : Option String) :
    StoreOps FsState :=
  { get := fun s k => fsGet now s k,
    set := fsSet ttl now bodyPutErr metaPutErr,
    remove := fsRemove }

/-! ## Construction-time key-flag update

`createFetchWithCache` executes
`key_flags = Object.assign(DEFAULT_KEY_FLAGS, options.keyFlags)`.
`Object.assign` mutates its first argument, so the module-level
`DEFAULT_KEY_FLAGS` object itself absorbs each construction's overrides
and `key_flags` aliases it.  `FlagGlobals` tracks both bindings. -/

/-- The `options.keyFlags` object: per-flag overrides, absent fields left
untouched by `Object.assign`. -/
structure KeyFlagsPatch where
  cache : Option Bool := none
  credentials : Option Bool := none
  destination : Option Bool := none
  headers : Option HeadersFlag := none
  integrity : Option Bool := none
  method : Option Bool := none
  redirect : Option Bool := none
  referrer : Option Bool := none
  referrerPolicy : Option Bool := none
  url : Option Bool := none
  body : Option Bool := none
  deriving DecidableEq

/-- Model of `Object.assign(target, patch)` on a key-flag object (with
`patch` possibly `undefined`): present patch fields overwrite, and the
result is the mutated target. -/
def objectAssignFlags (target : KeyFlags) (patch : Option KeyFlagsPatch) : KeyFlags :=
  match patch with
  | none => target
  | some p =>
    { cache := p.cache.getD target.cache,
      credentials := p.credentials.getD target.credentials,
      destination := p.destination.getD target.destination,
      headers := p.headers.getD target.headers,
      integrity := p.integrity.getD target.integrity,
      method := p.method.getD target.method,
      redirect := p.redirect.getD target.redirect,
      referrer := p.referrer.getD target.referrer,
      referrerPolicy := p.referrerPolicy.getD target.referrerPolicy,
      url := p.url.getD target.url,
      body := p.body.getD target.body }

/-- The module-level mutable bindings: the object named
`DEFAULT_KEY_FLAGS` and the `key_flags` binding read by key derivation. -/
structure FlagGlobals where
  defaults : KeyFlags
  current : KeyFlags
  deriving DecidableEq

/-- Module-load state: `key_flags = DEFAULT_KEY_FLAGS`, all flags true. -/
def initialFlagGlobals : FlagGlobals :=
  { defaults := DEFAULT_KEY_FLAGS, current := DEFAULT_KEY_FLAGS }

/-- The key-flag effect of one `createFetchWithCache(cache, options)` call:
`Object.assign(DEFAULT_KEY_FLAGS, options.keyFlags)` mutates the default
object in place and `key_flags` is bound to it. -/
def createFetchWithCacheFlags (g : FlagGlobals) (patch : Option KeyFlagsPatch) :
    FlagGlobals :=
  let d := objectAssignFlags g.defaults patch
  { defaults := d, current := d }

/-! ## Multipart bodies built from shared content

For the boundary-invariance property, a multipart body is described by its
boundary-independent content: each `_streams` element is either a string
template — content segments that the form-data builder joins with the
boundary token spliced between them — or a non-string stream part.  Two
form-data instances carrying the same field content and different random
boundaries are exactly two renderings of one template list.
`noMatchAtB`/`cleanPartsB` state that the boundary occurs in the rendered
strings only at the spliced positions (what boundary randomness
guarantees). -/

/-- Join content segments with the boundary token between them (how a
rendered string part of a multipart body contains its boundary). -/
def sepJoin (b : List Char) : List (List Char) → List Char
  | [] => []
  | [s] => s
  | s :: rest => s ++ b ++ sepJoin b rest

/-- The rendered text following a first segment: empty when it is the last
segment, otherwise the boundary and the remaining joined segments. -/
def sepTail (b : List Char) : List (List Char) → List Char
  | [] => []
  | l => b ++ sepJoin b l

/-- No occurrence of `pat` begins inside the `xs` prefix of `xs ++ rest`. -/
def noMatchAtB (pat xs rest : List Char) : Bool :=
  (List.range xs.length).all
    (fun i => !(((xs ++ rest).drop i).take pat.length == pat))

/-- The boundary occurs in the joined segments only at the spliced
positions: no occurrence begins inside any content segment. -/
def cleanPartsB (pat : List Char) : List (List Char) → Bool
  | [] => true
  | s :: rest => noMatchAtB pat s (sepTail pat rest) && cleanPartsB pat rest

/-- Boundary-independent description of one `_streams` element. -/
inductive PartTemplate where
  | strT (segs : List (List Char))
  | objT (id : Nat)
  deriving DecidableEq

/-- Render a part template with a concrete boundary token. -/
def renderPart (b : List Char) : PartTemplate → StreamPart
  | PartTemplate.strT segs => StreamPart.str (sepJoin b segs)
  | PartTemplate.objT i => StreamPart.obj i

/-- The rendered boundary occurs only at spliced positions, in every string
part of the template list. -/
def cleanTemplate (b : List Char) (parts : List PartTemplate) : Bool :=
  parts.all (fun pt =>
    match pt with
    | PartTemplate.strT segs => cleanPartsB b segs
    | PartTemplate.objT _ => true)

/-- Keys of an association list are pairwise distinct (the invariant of
every JavaScript-object embedding). -/
def distinctKeys {α : Type} (l : List (String × α)) : Prop :=
  (l.map Prod.fst).Nodup

/-! ## Concrete evaluation fixtures

Small concrete requests, responses and store states at which the theorems
below are evaluated. -/

/-- Concrete response metadata. -/
def wMeta : MetaData :=
  { url := "https://example.com/a", status := 200, statusText := "OK",
    headers := [("content-type", ["text/plain"])], size := 0, timeout := 0,
    counter := 0 }

/-- Concrete transport response whose serialised metadata is `wMeta`. -/
def wResp : FetchResp :=
  { url := "https://example.com/a", status := 200, statusText := "OK",
    headers := [("content-type", ["text/plain"])], size := 0, timeout := 0,
    counter := 0, body := [104, 105] }

/-- The cache key the index.cjs derivation produces for a bare URL `u` with
no init options. -/
def wKey : String :=
  match getCacheKeyCjs DEFAULT_KEY_FLAGS (Resource.url "u") {} with
  | Except.ok s => s
  | Except.error _ => ""

/-- Init object carrying the only-if-cached directive. -/
def wInitOIC : Init :=
  { headers := some [("Cache-Control", "only-if-cached")] }

/-- The cache key derived for a bare URL `u` with the only-if-cached
init. -/
def wKeyOIC : String :=
  match getCacheKeyCjs DEFAULT_KEY_FLAGS (Resource.url "u") wInitOIC with
  | Except.ok s => s
  | Except.error _ => ""

/-- Concrete MemoryCache entry holding `wResp`'s body and metadata. -/
def wEntry : MemEntry :=
  { bodyBuffer := [104, 105], metaData := wMeta }

/-- Empty MemoryCache state. -/
def wMemEmpty : MemState :=
  { cache := [], timers := [] }

/-- MemoryCache state holding the entry for `wKey`. -/
def wMemHit : MemState :=
  { cache := [(wKey, wEntry)], timers := [] }

/-- MemoryCache state holding the entry for `wKeyOIC`. -/
def wMemHitOIC : MemState :=
  { cache := [(wKeyOIC, wEntry)], timers := [] }

/-- Empty FileSystemCache state. -/
def wFsEmpty : FsState :=
  { metas := [], bodies := [] }

/-- A structured request with empty-ish defaulted fields, as node-fetch
builds for a plain GET. -/
def wReq : ReqLike :=
  { cache := some "default", credentials := some "same-origin",
    destination := some "", headers := some [], integrity := some "",
    method := some "GET", redirect := some "follow", referrer := some "",
    referrerPolicy := some "", url := some "https://example.com/a",
    body := Body.jsNull }

/-- The cache key the TypeScript derivation produces for `wReq` with no
init options under the default flags. -/
def wKeyReq : String :=
  match getCacheKeyTs DEFAULT_KEY_FLAGS (Resource.request wReq) {} with
  | Except.ok s => s
  | Except.error _ => ""

/-! ## Association-list lemmas -/

theorem lookupKey_upsert_self {α : Type} (l : List (String × α)) (k : String) (v : α) :
    lookupKey k (upsert l k v) = some v := by
  induction l with
  | nil => simp [upsert, lookupKey]
  | cons p t ih =>
    obtain ⟨k', v'⟩ := p
    by_cases h : k' = k
    · simp [upsert, h, lookupKey]
    · simp [upsert, h, lookupKey, ih]

theorem lookupKey_upsert_ne {α : Type} (l : List (String × α)) (k k' : String) (v : α)
    (h : k' ≠ k) : lookupKey k' (upsert l k v) = lookupKey k' l := by
  induction l with
  | nil => simp [upsert, lookupKey, Ne.symm h]
  | cons p t ih =>
    obtain ⟨k₀, v₀⟩ := p
    by_cases h0 : k₀ = k
    · simp [upsert, h0, lookupKey, Ne.symm h, h]
    · simp [upsert, h0, lookupKey, ih]

theorem lookupKey_eraseKey_self {α : Type} (l : List (String × α)) (k : String) :
    lookupKey k (eraseKey k l) = none := by
  induction l with
  | nil => simp [eraseKey, lookupKey]
  | cons p t ih =>
    obtain ⟨k₀, v₀⟩ := p
    by_cases h0 : k₀ = k
    · simpa [eraseKey, h0] using ih
    · simpa [eraseKey, h0, lookupKey, h0] using ih

theorem lookupKey_eraseKey_ne {α : Type} (l : List (String × α)) (k k' : String)
    (h : k' ≠ k) : lookupKey k' (eraseKey k l) = lookupKey k' l := by
  induction l with
  | nil => simp [eraseKey]
  | cons p t ih =>
    obtain ⟨k₀, v₀⟩ := p
    by_cases h0 : k₀ = k
    · simp [eraseKey, h0, lookupKey, Ne.symm h, ih]
    · simp [eraseKey, h0, lookupKey, ih]

theorem mem_upsert_self_eq {α : Type} (l : List (String × α)) (k : String) (v x : α)
    (hd : distinctKeys l) (h : (k, x) ∈ upsert l k v) : x = v := by
  induction l with
  | nil => simpa [upsert] using h
  | cons p t ih =>
    obtain ⟨k₀, v₀⟩ := p
    have hd0 : k₀ ∉ t.map Prod.fst ∧ distinctKeys t := by
      simpa [distinctKeys] using hd
    by_cases h0 : k₀ = k
    · rcases (by simpa [upsert, h0] using h : (k = k₀ ∧ x = v) ∨ (k, x) ∈ t) with ⟨_, hx⟩ | hmem
      · exact hx
      · exact absurd (h0 ▸ List.mem_map.mpr ⟨(k, x), hmem, rfl⟩) hd0.1
    · rcases (by simpa [upsert, h0] using h : (k = k₀ ∧ x = v₀) ∨ (k, x) ∈ upsert t k v) with ⟨he, _⟩ | hmem
      · exact absurd he.symm h0
      · exact ih hd0.2 hmem

theorem mem_upsert {α : Type} (l : List (String × α)) (k : String) (v : α)
    (p : String × α) (h : p ∈ upsert l k v) : p ∈ l ∨ p = (k, v) := by
  induction l with
  | nil => exact Or.inr (by simpa [upsert] using h)
  | cons q t ih =>
    obtain ⟨k₀, v₀⟩ := q
    by_cases h0 : k₀ = k
    · rcases (by simpa [upsert, h0] using h : p = (k₀, v) ∨ p ∈ t) with he | hm
      · exact Or.inr (by rw [he, h0])
      · exact Or.inl (List.mem_cons_of_mem _ hm)
    · rcases (by simpa [upsert, h0] using h : p = (k₀, v₀) ∨ p ∈ upsert t k v) with he | hm
      · exact Or.inl (by rw [he]; exact List.mem_cons_self _ _)
      · rcases ih hm with hl | hr
        · exact Or.inl (List.mem_cons_of_mem _ hl)
        · exact Or.inr hr

theorem distinctKeys_upsert {α : Type} (l : List (String × α)) (k : String) (v : α)
    (hd : distinctKeys l) : distinctKeys (upsert l k v) := by
  induction l with
  | nil => simp [upsert, distinctKeys]
  | cons p t ih =>
    obtain ⟨k₀, v₀⟩ := p
    have hd0 : k₀ ∉ t.map Prod.fst ∧ distinctKeys t := by
      simpa [distinctKeys] using hd
    by_cases h0 : k₀ = k
    · have : distinctKeys ((k₀, v) :: t) := by
        simpa [distinctKeys] using hd
      simpa [upsert, h0, distinctKeys] using this
    · have ht := ih hd0.2
      have hnotin : k₀ ∉ (upsert t k v).map Prod.fst := by
        intro hmem
        rcases List.mem_map.mp hmem with ⟨⟨k₁, v₁⟩, hmem1, hk1⟩
        rcases mem_upsert t k v (k₁, v₁) hmem1 with hl | hr
        · exact hd0.1 (List.mem_map.mpr ⟨(k₁, v₁), hl, hk1⟩)
        · exact h0 (by rw [← hk1]; exact congrArg Prod.fst hr)
      simpa [upsert, h0, distinctKeys] using And.intro hnotin ht

/-! ## Timer-scheduler lemmas -/

theorem fireFold_preserve (now : Int) (key : String) :
    ∀ (ts : List (String × Int)) (acc : MemState),
    (∀ ft, (key, ft) ∈ ts → now < ft) →
    lookupKey key (ts.foldl (fireStep now) acc).cache = lookupKey key acc.cache := by
  intro ts
  induction ts with
  | nil => intro acc _; rfl
  | cons p ts' ih =>
    intro acc h
    obtain ⟨k₀, ft₀⟩ := p
    rw [List.foldl_cons]
    have hstep : lookupKey key (fireStep now acc (k₀, ft₀)).cache = lookupKey key acc.cache := by
      unfold fireStep
      by_cases hd : ft₀ ≤ now
      · have hk : key ≠ k₀ := by
          intro he
          subst he
          exact absurd hd (not_le.mpr (h ft₀ (List.mem_cons_self _ _)))
        simp [hd, memRemove, lookupKey_eraseKey_ne _ _ _ hk]
      · simp [hd]
    rw [ih _ (fun ft hm => h ft (List.mem_cons_of_mem _ hm)), hstep]

theorem fireFold_none (now : Int) (key : String) :
    ∀ (ts : List (String × Int)) (acc : MemState),
    lookupKey key acc.cache = none →
    lookupKey key (ts.foldl (fireStep now) acc).cache = none := by
  intro ts
  induction ts with
  | nil => intro acc h; exact h
  | cons p ts' ih =>
    intro acc h
    obtain ⟨k₀, ft₀⟩ := p
    rw [List.foldl_cons]
    apply ih
    unfold fireStep
    by_cases hd : ft₀ ≤ now
    · by_cases hk : key = k₀
      · subst hk
        simp [hd, memRemove, lookupKey_eraseKey_self]
      · simp [hd, memRemove, lookupKey_eraseKey_ne _ _ _ hk, h]
    · simp [hd, h]

theorem fireFold_removes (now : Int) (key : String) (ft : Int) :
    ∀ (ts : List (String × Int)) (acc : MemState),
    (key, ft) ∈ ts → (∀ ft', (key, ft') ∈ ts → ft' ≤ now) →
    lookupKey key (ts.foldl (fireStep now) acc).cache = none := by
  intro ts
  induction ts with
  | nil => intro acc h _; cases h
  | cons p ts' ih =>
    intro acc hmem hall
    obtain ⟨k₀, ft₀⟩ := p
    rw [List.foldl_cons]
    by_cases hk : k₀ = key
    · subst hk
      have h0 : ft₀ ≤ now := hall ft₀ (List.mem_cons_self _ _)
      apply fireFold_none
      unfold fireStep
      simp [h0, memRemove, lookupKey_eraseKey_self]
    · have hmem' : (key, ft) ∈ ts' := by
        rcases List.mem_cons.mp hmem with he | hm
        · exact absurd (congrArg Prod.fst he).symm hk
        · exact hm
      exact ih _ hmem' (fun ft' hm' => hall ft' (List.mem_cons_of_mem _ hm'))

/-! ## Boundary-stripping lemmas -/

theorem stripGo_skip_append (pat : List Char) :
    ∀ (xs rest : List Char), stripGo pat xs.length (xs ++ rest) = stripGo pat 0 rest := by
  intro xs
  induction xs with
  | nil => intro rest; rfl
  | cons c xs' ih => intro rest; exact ih rest

theorem stripGo_match (pat : List Char) (h : pat ≠ []) (rest : List Char) :
    stripGo pat 0 (pat ++ rest) = stripGo pat 0 rest := by
  cases pat with
  | nil => exact absurd rfl h
  | cons p ps =>
    show stripGo (p :: ps) 0 (p :: (ps ++ rest)) = stripGo (p :: ps) 0 rest
    have hcond : 0 < (p :: ps).length ∧
        (p :: (ps ++ rest)).take (p :: ps).length = p :: ps := by
      constructor
      · simp
      · show (p :: (ps ++ rest)).take (ps.length + 1) = p :: ps
        simp [List.take_left]
    rw [stripGo, if_pos hcond]
    show stripGo (p :: ps) ps.length (ps ++ rest) = _
    exact stripGo_skip_append (p :: ps) ps rest

theorem stripGo_no_match (pat : List Char) :
    ∀ (xs rest : List Char),
    (∀ i, i < xs.length → ¬ ((xs ++ rest).drop i).take pat.length = pat) →
    stripGo pat 0 (xs ++ rest) = xs ++ stripGo pat 0 rest := by
  intro xs
  induction xs with
  | nil => intro rest _; rfl
  | cons c xs' ih =>
    intro rest h
    show stripGo pat 0 (c :: (xs' ++ rest)) = c :: (xs' ++ stripGo pat 0 rest)
    have hnot : ¬ (0 < pat.length ∧ (c :: (xs' ++ rest)).take pat.length = pat) := by
      intro hcond
      exact h 0 (by simp) (by simpa using hcond.2)
    rw [stripGo, if_neg hnot]
    rw [ih rest (fun i hi => by simpa using h (i + 1) (by simpa using hi))]

theorem noMatchAtB_iff (pat xs rest : List Char) :
    noMatchAtB pat xs rest = true ↔
    ∀ i, i < xs.length → ¬ ((xs ++ rest).drop i).take pat.length = pat := by
  simp [noMatchAtB, List.all_eq_true, List.mem_range]

theorem stripAll_sepJoin (pat : List Char) (h : pat ≠ []) :
    ∀ segs : List (List Char), cleanPartsB pat segs = true →
    stripAll pat (sepJoin pat segs) = segs.flatten := by
  intro segs
  induction segs with
  | nil => intro _; rfl
  | cons s rest ih =>
    intro hc
    have hc1 : noMatchAtB pat s (sepTail pat rest) = true ∧ cleanPartsB pat rest = true := by
      simpa [cleanPartsB] using hc
    have hs := (noMatchAtB_iff pat s (sepTail pat rest)).mp hc1.1
    cases rest with
    | nil =>
      have : stripGo pat 0 (s ++ ([] : List Char)) = s ++ stripGo pat 0 [] :=
        stripGo_no_match pat s [] (by simpa [sepTail] using hs)
      simpa [stripAll, sepJoin, stripGo] using this
    | cons s' rest' =>
      have htail : sepTail pat (s' :: rest') = pat ++ sepJoin pat (s' :: rest') := rfl
      have hstep : stripGo pat 0 (s ++ (pat ++ sepJoin pat (s' :: rest'))) =
          s ++ stripGo pat 0 (pat ++ sepJoin pat (s' :: rest')) :=
        stripGo_no_match pat s _ (by rw [← htail]; exact hs)
      have hjoin : sepJoin pat (s :: s' :: rest') = s ++ (pat ++ sepJoin pat (s' :: rest')) := by
        show s ++ pat ++ sepJoin pat (s' :: rest') = _
        rw [List.append_assoc]
      rw [stripAll, hjoin, hstep, stripGo_match pat h]
      have := ih hc1.2
      rw [stripAll] at this
      rw [this]
      simp

theorem gateField_congr (flag : Bool) (v1 v2 : Option String)
    (h : flag = true → v1 = v2) : gateField flag v1 = gateField flag v2 := by
  cases flag with
  | false => rfl
  | true => rw [h rfl]

/-! ## Claim theorems -/

/-- C1: for every call of the cache-aware fetch, a hit at the initial
store check returns the entry wrapped with `fromCache = true`, taking no
lock and invoking no transport; a miss followed by a hit at the re-check
after lock acquisition likewise returns `fromCache = true` with no
transport call (and releases the lock); and only when both checks miss is
the transport invoked (exactly once), in which case the store's
materialisation of the fetched response is returned with
`fromCache = false`. -/
theorem C1_orchestration {σ : Type} (ops : StoreOps σ) (s0 s1 : σ)
    (transport : Except String FetchResp) (flags : KeyFlags)
    (resource : Resource) (init : Option Init) (cacheKey : String)
    (hkey : getCacheKeyCjs flags resource (init.getD {}) = Except.ok cacheKey) :
    (∀ cv, ops.get s0 cacheKey = some cv →
      getResponse ops s0 s1 transport flags resource init =
        { state := s0,
          result := Except.ok (some { bodyStream := cv.bodyStream, metaData := cv.metaData, fromCache := true }),
          transportCalls := 0, lockTaken := false, lockReleased := false }) ∧
    (∀ cv, ops.get s0 cacheKey = none →
      hasOnlyWithCacheOption resource init = false →
      ops.get s1 cacheKey = some cv →
      getResponse ops s0 s1 transport flags resource init =
        { state := s1,
          result := Except.ok (some { bodyStream := cv.bodyStream, metaData := cv.metaData, fromCache := true }),
          transportCalls := 0, lockTaken := true, lockReleased := true }) ∧
    (∀ resp s2 newly, ops.get s0 cacheKey = none →
      hasOnlyWithCacheOption resource init = false →
      ops.get s1 cacheKey = none →
      transport = Except.ok resp →
      ops.set s1 cacheKey resp.body (serializeMetaFromNodeFetchResponse resp) =
        (s2, Except.ok (some newly)) →
      getResponse ops s0 s1 transport flags resource init =
        { state := s2,
          result := Except.ok (some { bodyStream := newly.bodyStream, metaData := newly.metaData, fromCache := false }),
          transportCalls := 1, lockTaken := true, lockReleased := true }) := by
  refine ⟨?_, ?_, ?_⟩
  · intro cv hget
    simp [getResponse, hkey, hget]
  · intro cv h0 hoic h1
    simp [getResponse, hkey, h0, hoic, h1]
  · intro resp s2 newly h0 hoic h1 ht hset
    simp [getResponse, hkey, h0, hoic, h1, ht, hset]

/-- C1 witness: the three paths evaluated on a concrete MemoryCache. -/
theorem C1_orchestration_witness :
    getResponse (memOps none 0) wMemHit wMemHit (Except.ok wResp) DEFAULT_KEY_FLAGS
        (Resource.url "u") none =
      { state := wMemHit,
        result := Except.ok (some { bodyStream := [104, 105], metaData := wMeta, fromCache := true }),
        transportCalls := 0, lockTaken := false, lockReleased := false } ∧
    getResponse (memOps none 0) wMemEmpty wMemHit (Except.ok wResp) DEFAULT_KEY_FLAGS
        (Resource.url "u") none =
      { state := wMemHit,
        result := Except.ok (some { bodyStream := [104, 105], metaData := wMeta, fromCache := true }),
        transportCalls := 0, lockTaken := true, lockReleased := true } ∧
    getResponse (memOps none 0) wMemEmpty wMemEmpty (Except.ok wResp) DEFAULT_KEY_FLAGS
        (Resource.url "u") none =
      { state := wMemHit,
        result := Except.ok (some { bodyStream := [104, 105], metaData := wMeta, fromCache := false }),
        transportCalls := 1, lockTaken := true, lockReleased := true } :=
  ⟨(C1_orchestration (memOps none 0) wMemHit wMemHit (Except.ok wResp) DEFAULT_KEY_FLAGS
      (Resource.url "u") none wKey (by decide)).1
      { bodyStream := [104, 105], metaData := wMeta } (by decide),
   (C1_orchestration (memOps none 0) wMemEmpty wMemHit (Except.ok wResp) DEFAULT_KEY_FLAGS
      (Resource.url "u") none wKey (by decide)).2.1
      { bodyStream := [104, 105], metaData := wMeta } (by decide) (by decide) (by decide),
   (C1_orchestration (memOps none 0) wMemEmpty wMemEmpty (Except.ok wResp) DEFAULT_KEY_FLAGS
      (Resource.url "u") none wKey (by decide)).2.2
      wResp wMemHit { bodyStream := [104, 105], metaData := wMeta }
      (by decide) (by decide) (by decide) rfl (by decide)⟩

/-- C4: a request carrying a `cache-control: only-if-cached` header
(either in `init.headers` or on a structured request) returns `undefined`
— a designed absent result, not an error — with zero transport calls when
the store misses, and returns the cached entry when the store hits. -/
theorem C4_only_if_cached {σ : Type} (ops : StoreOps σ) (s0 s1 : σ)
    (transport : Except String FetchResp) (flags : KeyFlags)
    (resource : Resource) (init : Option Init) (cacheKey : String)
    (hkey : getCacheKeyCjs flags resource (init.getD {}) = Except.ok cacheKey)
    (hdir : (∃ i hs, init = some i ∧ i.headers = some hs ∧
              ∃ p, p ∈ hs ∧ lowerStr p.1 = "cache-control" ∧ p.2 = "only-if-cached") ∨
            (∃ r, resource = Resource.request r ∧
              headersGet r.headers "Cache-Control" = some "only-if-cached")) :
    (ops.get s0 cacheKey = none →
      getResponse ops s0 s1 transport flags resource init =
        { state := s0, result := Except.ok none, transportCalls := 0,
          lockTaken := false, lockReleased := false }) ∧
    (∀ cv, ops.get s0 cacheKey = some cv →
      getResponse ops s0 s1 transport flags resource init =
        { state := s0,
          result := Except.ok (some { bodyStream := cv.bodyStream, metaData := cv.metaData, fromCache := true }),
          transportCalls := 0, lockTaken := false, lockReleased := false }) := by
  have hoic : hasOnlyWithCacheOption resource init = true := by
    rcases hdir with ⟨i, hs, hinit, hih, p, hp, hk, hv⟩ | ⟨r, hres, hget⟩
    · subst hinit
      simp only [hasOnlyWithCacheOption, hih, Bool.or_eq_true]
      exact Or.inl (by
        simp only [List.any_eq_true]
        exact ⟨p, hp, by simp [hk, hv]⟩)
    · subst hres
      simp [hasOnlyWithCacheOption, hget]
  refine ⟨?_, ?_⟩
  · intro h0
    simp [getResponse, hkey, h0, hoic]
  · intro cv h0
    simp [getResponse, hkey, h0]

/-- C4 witness: only-if-cached against an empty and a populated
MemoryCache. -/
theorem C4_only_if_cached_witness :
    getResponse (memOps none 0) wMemEmpty wMemEmpty (Except.ok wResp) DEFAULT_KEY_FLAGS
        (Resource.url "u") (some wInitOIC) =
      { state := wMemEmpty, result := Except.ok none, transportCalls := 0,
        lockTaken := false, lockReleased := false } ∧
    getResponse (memOps none 0) wMemHitOIC wMemHitOIC (Except.ok wResp) DEFAULT_KEY_FLAGS
        (Resource.url "u") (some wInitOIC) =
      { state := wMemHitOIC,
        result := Except.ok (some { bodyStream := [104, 105], metaData := wMeta, fromCache := true }),
        transportCalls := 0, lockTaken := false, lockReleased := false } :=
  ⟨(C4_only_if_cached (memOps none 0) wMemEmpty wMemEmpty (Except.ok wResp) DEFAULT_KEY_FLAGS
      (Resource.url "u") (some wInitOIC) wKeyOIC (by decide)
      (Or.inl ⟨wInitOIC, [("Cache-Control", "only-if-cached")], rfl, rfl,
        ("Cache-Control", "only-if-cached"), by decide, by decide, rfl⟩)).1 (by decide),
   (C4_only_if_cached (memOps none 0) wMemHitOIC wMemHitOIC (Except.ok wResp) DEFAULT_KEY_FLAGS
      (Resource.url "u") (some wInitOIC) wKeyOIC (by decide)
      (Or.inl ⟨wInitOIC, [("Cache-Control", "only-if-cached")], rfl, rfl,
        ("Cache-Control", "only-if-cached"), by decide, by decide, rfl⟩)).2
      { bodyStream := [104, 105], metaData := wMeta } (by decide)⟩

/-- C2: when both store checks miss, a transport failure propagates
unchanged (no retry: exactly one transport call), the lock is released,
and the store is untouched; a storage write failure (body or metadata put)
likewise propagates unchanged with the lock released, and the store's
get-observable state for the key is exactly what it was before the call —
no entry is created, because the metadata document that makes an entry
visible is only written after the body is fully persisted. -/
theorem C2_failure_semantics (ttl : Option Int) (now : Int)
    (bodyPutErr metaPutErr : Option String) (s0 s1 : FsState)
    (transport : Except String FetchResp) (flags : KeyFlags)
    (resource : Resource) (init : Option Init) (cacheKey : String)
    (hkey : getCacheKeyCjs flags resource (init.getD {}) = Except.ok cacheKey)
    (h0 : fsGet now s0 cacheKey = none) (h1 : fsGet now s1 cacheKey = none)
    (hoic : hasOnlyWithCacheOption resource init = false) :
    (∀ e, transport = Except.error e →
      getResponse (fsOps ttl now bodyPutErr metaPutErr) s0 s1 transport flags resource init =
        { state := s1, result := Except.error e, transportCalls := 1,
          lockTaken := true, lockReleased := true }) ∧
    (∀ resp e, transport = Except.ok resp → bodyPutErr = some e →
      getResponse (fsOps ttl now bodyPutErr metaPutErr) s0 s1 transport flags resource init =
        { state := s1, result := Except.error e, transportCalls := 1,
          lockTaken := true, lockReleased := true }) ∧
    (∀ resp e, transport = Except.ok resp → bodyPutErr = none → metaPutErr = some e →
      ∃ s2, getResponse (fsOps ttl now bodyPutErr metaPutErr) s0 s1 transport flags resource init =
        { state := s2, result := Except.error e, transportCalls := 1,
          lockTaken := true, lockReleased := true } ∧
        ∀ t, fsGet t s2 cacheKey = fsGet t s1 cacheKey) := by
  refine ⟨?_, ?_, ?_⟩
  · intro e ht
    simp [getResponse, hkey, fsOps, h0, hoic, h1, ht]
  · intro resp e ht hb
    simp [getResponse, hkey, fsOps, h0, hoic, h1, ht, fsSet, hb]
  · intro resp e ht hb hm
    by_cases hempty : resp.body = []
    · refine ⟨s1, ?_, fun t => rfl⟩
      simp [getResponse, hkey, fsOps, h0, hoic, h1, ht, fsSet, hb, hempty, fsWriteMeta, hm]
    · refine ⟨{ s1 with bodies := upsert s1.bodies (cacheKey ++ "body") resp.body }, ?_, fun t => rfl⟩
      simp [getResponse, hkey, fsOps, h0, hoic, h1, ht, fsSet, hb, hempty, fsWriteMeta, hm]

/-- C2 witness: the three failure paths evaluated on a concrete empty
FileSystemCache. -/
theorem C2_failure_semantics_witness :
    getResponse (fsOps none 0 none none) wFsEmpty wFsEmpty (Except.error "transport down")
        DEFAULT_KEY_FLAGS (Resource.url "u") none =
      { state := wFsEmpty, result := Except.error "transport down", transportCalls := 1,
        lockTaken := true, lockReleased := true } ∧
    getResponse (fsOps none 0 (some "body write failed") none) wFsEmpty wFsEmpty
        (Except.ok wResp) DEFAULT_KEY_FLAGS (Resource.url "u") none =
      { state := wFsEmpty, result := Except.error "body write failed", transportCalls := 1,
        lockTaken := true, lockReleased := true } ∧
    (∃ s2, getResponse (fsOps none 0 none (some "meta write failed")) wFsEmpty wFsEmpty
        (Except.ok wResp) DEFAULT_KEY_FLAGS (Resource.url "u") none =
      { state := s2, result := Except.error "meta write failed", transportCalls := 1,
        lockTaken := true, lockReleased := true } ∧
      ∀ t, fsGet t s2 wKey = fsGet t wFsEmpty wKey) :=
  ⟨(C2_failure_semantics none 0 none none wFsEmpty wFsEmpty (Except.error "transport down")
      DEFAULT_KEY_FLAGS (Resource.url "u") none wKey (by decide) (by decide) (by decide)
      (by decide)).1 "transport down" rfl,
   (C2_failure_semantics none 0 (some "body write failed") none wFsEmpty wFsEmpty
      (Except.ok wResp) DEFAULT_KEY_FLAGS (Resource.url "u") none wKey (by decide) (by decide)
      (by decide) (by decide)).2.1 wResp "body write failed" rfl rfl,
   (C2_failure_semantics none 0 none (some "meta write failed") wFsEmpty wFsEmpty
      (Except.ok wResp) DEFAULT_KEY_FLAGS (Resource.url "u") none wKey (by decide) (by decide)
      (by decide) (by decide)).2.2 wResp "meta write failed" rfl rfl rfl⟩

/-! ## FileSystemCache set/get helper lemmas -/

theorem fsSet_success_state (ttl : Option Int) (now : Int) (s : FsState)
    (key : String) (body : List Nat) (meta : MetaData) :
    (fsSet ttl now none none s key body meta).1 =
      { s with
        bodies := if body = [] then s.bodies else upsert s.bodies (key ++ "body") body,
        metas := upsert s.metas (key ++ "meta")
          { meta := meta, expiration := ttl.map (fun t => now + t),
            bodyStreamIntegrity := if body = [] then none else some body,
            empty := if body = [] then some true else none } } := by
  by_cases hb : body = [] <;> simp [fsSet, fsWriteMeta, hb]

theorem fsSet_success_value (ttl : Option Int) (now : Int) (s : FsState)
    (key : String) (body : List Nat) (meta : MetaData) :
    (fsSet ttl now none none s key body meta).2 =
      Except.ok (fsGet now (fsSet ttl now none none s key body meta).1 key) := by
  by_cases hb : body = [] <;> simp [fsSet, fsWriteMeta, hb]

theorem fsGet_after_set (ttl : Option Int) (now now' : Int) (s : FsState)
    (key : String) (body : List Nat) (meta : MetaData)
    (hget : ∀ t, ttl = some t → now' ≤ now + t) :
    fsGet now' (fsSet ttl now none none s key body meta).1 key =
      some { bodyStream := body, metaData := meta } := by
  rw [fsSet_success_state]
  have hnotexp : ∀ tq : Int, ttl = some tq →
      ((¬ (now + tq) = 0 ∧ (now + tq) < now' : Bool) = false) := by
    intro tq htq
    rw [decide_eq_false_iff_not]
    rintro ⟨_, hlt⟩
    exact absurd hlt (not_lt.mpr (hget tq htq))
  by_cases hb : body = []
  · cases httl : ttl with
    | none => simp [fsGet, lookupKey_upsert_self, hb]
    | some tq => simp [fsGet, lookupKey_upsert_self, hb, hnotexp tq httl]
  · cases httl : ttl with
    | none => simp [fsGet, lookupKey_upsert_self, hb]
    | some tq => simp [fsGet, lookupKey_upsert_self, hb, hnotexp tq httl]

/-- C3: `set(key, bodyStream, meta)` followed by `get(key)` returns a body
byte-for-byte equal to the stream's contents and metadata equal to the
stored metadata, for both MemoryCache and FileSystemCache; `set` itself
returns a fresh materialisation equal to what a subsequent `get` returns;
and in the FileSystemCache the persisted metadata document carries the
internal-only fields (`expiration`, `bodyStreamIntegrity`, `empty`) which
are stripped from what `get` hands back (for FileSystemCache, under a
non-negative TTL and a read before the expiration instant). -/
theorem C3_round_trip :
    (∀ (ttl : Option Int) (now : Int) (s : MemState) (key : String)
        (body : List Nat) (meta : MetaData),
      (memSet ttl now s key body meta).2 = some { bodyStream := body, metaData := meta } ∧
      memGet (memSet ttl now s key body meta).1 key =
        some { bodyStream := body, metaData := meta }) ∧
    (∀ (ttl : Option Int) (now now' : Int) (s : FsState) (key : String)
        (body : List Nat) (meta : MetaData),
      (∀ t, ttl = some t → now ≤ now + t) →
      (∀ t, ttl = some t → now' ≤ now + t) →
      (fsSet ttl now none none s key body meta).2 =
        Except.ok (some { bodyStream := body, metaData := meta }) ∧
      fsGet now' (fsSet ttl now none none s key body meta).1 key =
        some { bodyStream := body, metaData := meta } ∧
      lookupKey (key ++ "meta") (fsSet ttl now none none s key body meta).1.metas =
        some { meta := meta, expiration := ttl.map (fun t => now + t),
               bodyStreamIntegrity := if body = [] then none else some body,
               empty := if body = [] then some true else none }) := by
  constructor
  · intro ttl now s key body meta
    cases ttl with
    | none => simp [memSet, memGet, lookupKey_upsert_self]
    | some t => simp [memSet, memGet, lookupKey_upsert_self]
  · intro ttl now now' s key body meta hset hget
    refine ⟨?_, fsGet_after_set ttl now now' s key body meta hget, ?_⟩
    · rw [fsSet_success_value, fsGet_after_set ttl now now s key body meta hset]
    · rw [fsSet_success_state]
      exact lookupKey_upsert_self _ _ _

/-- C3 witness: the round trip evaluated on both backends with a concrete
TTL, time and payload. -/
theorem C3_round_trip_witness :
    ((memSet (some 5) 100 wMemEmpty "k" [1, 2] wMeta).2 =
        some { bodyStream := [1, 2], metaData := wMeta } ∧
      memGet (memSet (some 5) 100 wMemEmpty "k" [1, 2] wMeta).1 "k" =
        some { bodyStream := [1, 2], metaData := wMeta }) ∧
    ((fsSet (some 5) 100 none none wFsEmpty "k" [1, 2] wMeta).2 =
        Except.ok (some { bodyStream := [1, 2], metaData := wMeta }) ∧
      fsGet 102 (fsSet (some 5) 100 none none wFsEmpty "k" [1, 2] wMeta).1 "k" =
        some { bodyStream := [1, 2], metaData := wMeta } ∧
      lookupKey ("k" ++ "meta") (fsSet (some 5) 100 none none wFsEmpty "k" [1, 2] wMeta).1.metas =
        some { meta := wMeta, expiration := (some (5 : Int)).map (fun t => 100 + t),
               bodyStreamIntegrity := if ([1, 2] : List Nat) = [] then none else some [1, 2],
               empty := if ([1, 2] : List Nat) = [] then some true else none }) :=
  ⟨C3_round_trip.1 (some 5) 100 wMemEmpty "k" [1, 2] wMeta,
   C3_round_trip.2 (some 5) 100 102 wFsEmpty "k" [1, 2] wMeta
     (fun t ht => by injection ht with h; subst h; decide)
     (fun t ht => by injection ht with h; subst h; decide)⟩

theorem mem_upsert_self {α : Type} (l : List (String × α)) (k : String) (v : α) :
    (k, v) ∈ upsert l k v := by
  induction l with
  | nil => simp [upsert]
  | cons p t ih =>
    obtain ⟨k₀, v₀⟩ := p
    by_cases h0 : k₀ = k
    · subst h0
      simp [upsert]
    · simpa [upsert, h0] using Or.inr ih

/-- C7: with TTL `t` configured, a MemoryCache entry written by `set` is
still returned by `get` at any instant strictly before `t` has elapsed and
is gone once the removal timer has fired; `set` keeps at most one pending
removal timer per key (re-scheduling replaces the old timer), so an entry
refreshed by a second `set` survives past the first `set`'s deadline until
its own deadline; and FileSystemCache checks the stored absolute
expiration lazily at `get` time, answering a miss for an elapsed entry
while leaving the stored document in place (`fsGet` performs no write —
it takes the state and returns only the lookup result). -/
theorem C7_ttl_expiry :
    (∀ (s : MemState) (key : String) (body : List Nat) (meta : MetaData)
        (t now0 now1 : Int), distinctKeys s.timers → now1 < now0 + t →
      memGet (fireDue (memSet (some t) now0 s key body meta).1 now1) key =
        some { bodyStream := body, metaData := meta }) ∧
    (∀ (s : MemState) (key : String) (body : List Nat) (meta : MetaData)
        (t now0 now1 : Int), distinctKeys s.timers → now0 + t ≤ now1 →
      memGet (fireDue (memSet (some t) now0 s key body meta).1 now1) key = none) ∧
    (∀ (s : MemState) (key : String) (body : List Nat) (meta : MetaData)
        (ttl : Option Int) (now : Int), distinctKeys s.timers →
      distinctKeys (memSet ttl now s key body meta).1.timers) ∧
    (∀ (s : MemState) (key : String) (b0 b1 : List Nat) (m0 m1 : MetaData)
        (t now0 now1 now2 : Int), distinctKeys s.timers → now2 < now1 + t →
      memGet (fireDue (memSet (some t) now1 (memSet (some t) now0 s key b0 m0).1 key b1 m1).1 now2) key =
        some { bodyStream := b1, metaData := m1 }) ∧
    (∀ (now : Int) (s : FsState) (key : String) (sm : StoredMeta) (e : Int),
      lookupKey (key ++ "meta") s.metas = some sm →
      sm.expiration = some e → ¬ e = 0 → e < now →
      fsGet now s key = none) ∧
    (∀ (t now0 now1 : Int) (s : FsState) (key : String) (body : List Nat) (meta : MetaData),
      (now1 ≤ now0 + t →
        fsGet now1 (fsSet (some t) now0 none none s key body meta).1 key =
          some { bodyStream := body, metaData := meta }) ∧
      (now0 + t < now1 → ¬ (now0 + t) = 0 →
        fsGet now1 (fsSet (some t) now0 none none s key body meta).1 key = none)) := by
  have hstate : ∀ (s : MemState) key body meta (t now0 : Int),
      (memSet (some t) now0 s key body meta).1 =
        { cache := upsert s.cache key { bodyBuffer := body, metaData := meta },
          timers := upsert s.timers key (now0 + t) } := by
    intro s key body meta t now0
    simp [memSet]
  have ha : ∀ (s : MemState) key body meta (t now0 now1 : Int),
      distinctKeys s.timers → now1 < now0 + t →
      memGet (fireDue (memSet (some t) now0 s key body meta).1 now1) key =
        some { bodyStream := body, metaData := meta } := by
    intro s key body meta t now0 now1 hd hlt
    rw [hstate]
    unfold fireDue memGet
    rw [fireFold_preserve now1 key _ _ ?_]
    · simp [lookupKey_upsert_self]
    · intro ft hm
      have he := mem_upsert_self_eq s.timers key (now0 + t) ft hd hm
      omega
  refine ⟨ha, ?_, ?_, ?_, ?_, ?_⟩
  · intro s key body meta t now0 now1 hd hle
    rw [hstate]
    unfold fireDue memGet
    rw [fireFold_removes now1 key (now0 + t) _ _ (mem_upsert_self _ _ _) ?_]
    · rfl
    · intro ft' hm
      have he := mem_upsert_self_eq s.timers key (now0 + t) ft' hd hm
      omega
  · intro s key body meta ttl now hd
    cases ttl with
    | none => simpa [memSet] using hd
    | some t =>
      simpa [memSet] using distinctKeys_upsert s.timers key (now + t) hd
  · intro s key b0 b1 m0 m1 t now0 now1 now2 hd hlt
    have hd' : distinctKeys (memSet (some t) now0 s key b0 m0).1.timers := by
      simpa [memSet] using distinctKeys_upsert s.timers key (now0 + t) hd
    exact ha _ key b1 m1 t now1 now2 hd' hlt
  · intro now s key sm e hlook hexp hne hlt
    have hcond : (¬ e = 0 ∧ e < now : Bool) = true := by
      rw [decide_eq_true_eq]
      exact ⟨hne, hlt⟩
    simp [fsGet, hlook, hexp, hcond]
  · intro t now0 now1 s key body meta
    constructor
    · intro hle
      exact fsGet_after_set (some t) now0 now1 s key body meta
        (fun tq htq => by injection htq with h; subst h; exact hle)
    · intro hlt hne
      rw [fsSet_success_state]
      have hcond : (¬ (now0 + t) = 0 ∧ (now0 + t) < now1 : Bool) = true := by
        rw [decide_eq_true_eq]
        exact ⟨hne, hlt⟩
      by_cases hb : body = [] <;> simp [fsGet, lookupKey_upsert_self, hb, hcond]

/-- C7 witness: the TTL behaviour evaluated on concrete states and
instants. -/
theorem C7_ttl_expiry_witness :
    memGet (fireDue (memSet (some 5) 100 wMemEmpty "k" [1] wMeta).1 104) "k" =
      some { bodyStream := [1], metaData := wMeta } ∧
    memGet (fireDue (memSet (some 5) 100 wMemEmpty "k" [1] wMeta).1 105) "k" = none ∧
    distinctKeys (memSet (some 5) 100 wMemEmpty "k" [1] wMeta).1.timers ∧
    memGet (fireDue (memSet (some 5) 103 (memSet (some 5) 100 wMemEmpty "k" [1] wMeta).1 "k" [2] wMeta).1 107) "k" =
      some { bodyStream := [2], metaData := wMeta } ∧
    fsGet 106 (fsSet (some 5) 100 none none wFsEmpty "k" [1] wMeta).1 "k" = none :=
  ⟨C7_ttl_expiry.1 wMemEmpty "k" [1] wMeta 5 100 104 (by simp [distinctKeys, wMemEmpty]) (by decide),
   C7_ttl_expiry.2.1 wMemEmpty "k" [1] wMeta 5 100 105 (by simp [distinctKeys, wMemEmpty]) (by decide),
   C7_ttl_expiry.2.2.1 wMemEmpty "k" [1] wMeta (some 5) 100 (by simp [distinctKeys, wMemEmpty]),
   C7_ttl_expiry.2.2.2.1 wMemEmpty "k" [1] [2] wMeta wMeta 5 100 103 107 (by simp [distinctKeys, wMemEmpty]) (by decide),
   (C7_ttl_expiry.2.2.2.2.2 5 100 106 wFsEmpty "k" [1] wMeta).2 (by decide) (by decide)⟩

/-- C5 (code bug): the claim says a construction with no `keyFlags` option
restores the default flag set (every flag true).  The code instead runs
`Object.assign(DEFAULT_KEY_FLAGS, options.keyFlags)`, which mutates the
default object itself, so after constructing once with
`keyFlags: \x7b body: false \x7d` and again with no options, `key_flags.body`
is still `false` — the first construction's override persists in the
supposed defaults. -/
theorem C5_default_flags_mutated :
    (createFetchWithCacheFlags
        (createFetchWithCacheFlags initialFlagGlobals (some { body := some false }))
        none).current.body = false ∧
    DEFAULT_KEY_FLAGS.body = true ∧
    (createFetchWithCacheFlags
        (createFetchWithCacheFlags initialFlagGlobals (some { body := some false }))
        none).defaults.body = false := by
  decide

/-- C9 (code bug): for a bare URL string the TypeScript variant
(`src/unnamed/part_000`) routes the synthetic `\x7b url \x7d` object through
`getRequestCacheKey`, which dereferences its missing `headers` and throws a
TypeError instead of returning a key; the index.cjs build of the same
function returns a key without error. -/
theorem C9_bare_url_ts_throws :
    getCacheKeyTs DEFAULT_KEY_FLAGS (Resource.url "https://example.com/a") {} =
      Except.error headersTypeErrorMsg ∧
    Except.isOk (getCacheKeyCjs DEFAULT_KEY_FLAGS (Resource.url "https://example.com/a") {}) = true := by
  decide

/-- C10: the body normaliser is applied twice to a structured request's
body (inside `getRequestCacheKey` and again inside `getCacheKey`); it is
idempotent on the falsy, string, URL-params, file-stream and buffer
shapes, but a multipart form normalises to a plain object that the second
application rejects, so with the `body` flag on, `getCacheKey` throws the
unsupported-body-type error for every structured request with a multipart
body (in both source variants), even though multipart is a supported body
shape. -/
theorem C10_double_normalisation :
    (∀ b : Body,
      (match b with
       | Body.formData _ => False
       | Body.plainObj _ => False
       | _ => True) →
      ∃ b', getBodyCacheKeyJson b = Except.ok b' ∧ getBodyCacheKeyJson b' = Except.ok b') ∧
    (∀ fd : FormDataModel,
      getBodyCacheKeyJson (Body.formData fd) =
        Except.ok (Body.plainObj (getFormDataCacheKey fd)) ∧
      getBodyCacheKeyJson (Body.plainObj (getFormDataCacheKey fd)) =
        Except.error unsupportedBodyTypeMsg) ∧
    (∀ (flags : KeyFlags) (r : ReqLike) (init : Init) (fd : FormDataModel)
        (hs : List (String × String)),
      flags.body = true → r.body = Body.formData fd → r.headers = some hs →
      getCacheKeyTs flags (Resource.request r) init = Except.error unsupportedBodyTypeMsg ∧
      getCacheKeyCjs flags (Resource.request r) init = Except.error unsupportedBodyTypeMsg) := by
  refine ⟨?_, ?_, ?_⟩
  · intro b hb
    cases b with
    | jsUndefined => exact ⟨Body.jsUndefined, rfl, rfl⟩
    | jsNull => exact ⟨Body.jsNull, rfl, rfl⟩
    | str s => exact ⟨Body.str s, rfl, rfl⟩
    | urlParams s => exact ⟨Body.str s, rfl, rfl⟩
    | fileStream p => exact ⟨Body.str p, rfl, rfl⟩
    | buffer s => exact ⟨Body.str s, rfl, rfl⟩
    | formData fd => cases hb
    | plainObj ps => cases hb
  · intro fd
    exact ⟨rfl, rfl⟩
  · intro flags r init fd hs hflag hbody hheaders
    have hreq : ∀ v, getRequestCacheKey v flags r =
        Except.ok
          { cache := gateField flags.cache r.cache,
            credentials := gateField flags.credentials r.credentials,
            destination := gateField flags.destination r.destination,
            headers :=
              if flags.headers.truthy then
                HdrsOrStr.obj (getHeadersCacheKeyJson v flags (objFromEntries hs))
              else HdrsOrStr.emptyStr,
            integrity := gateField flags.integrity r.integrity,
            method := gateField flags.method r.method,
            redirect := gateField flags.redirect r.redirect,
            referrer := gateField flags.referrer r.referrer,
            referrerPolicy := gateField flags.referrerPolicy r.referrerPolicy,
            url := gateField flags.url r.url,
            body := Body.plainObj (getFormDataCacheKey fd) } := by
      intro v
      simp [getRequestCacheKey, hheaders, hflag, hbody, getBodyCacheKeyJson]
    constructor
    · simp [getCacheKeyTs, hreq Variant.ts, getBodyCacheKeyJson]
    · simp [getCacheKeyCjs, hreq Variant.cjs, getBodyCacheKeyJson, Except.map]

/-- C10 witness: the multipart crash and the idempotent shapes evaluated
on concrete bodies and a concrete request. -/
theorem C10_double_normalisation_witness :
    (∃ b', getBodyCacheKeyJson (Body.str "x") = Except.ok b' ∧
      getBodyCacheKeyJson b' = Except.ok b') ∧
    (getBodyCacheKeyJson (Body.formData { boundary := "B".data, streams := [] }) =
        Except.ok (Body.plainObj []) ∧
      getBodyCacheKeyJson (Body.plainObj []) = Except.error unsupportedBodyTypeMsg) ∧
    getCacheKeyTs DEFAULT_KEY_FLAGS
        (Resource.request { wReq with body := Body.formData { boundary := "B".data, streams := [] } }) {} =
      Except.error unsupportedBodyTypeMsg ∧
    getCacheKeyCjs DEFAULT_KEY_FLAGS
        (Resource.request { wReq with body := Body.formData { boundary := "B".data, streams := [] } }) {} =
      Except.error unsupportedBodyTypeMsg :=
  ⟨C10_double_normalisation.1 (Body.str "x") trivial,
   C10_double_normalisation.2.1 { boundary := "B".data, streams := [] },
   (C10_double_normalisation.2.2 DEFAULT_KEY_FLAGS
      { wReq with body := Body.formData { boundary := "B".data, streams := [] } } {}
      { boundary := "B".data, streams := [] } [] rfl rfl (by decide)).1,
   (C10_double_normalisation.2.2 DEFAULT_KEY_FLAGS
      { wReq with body := Body.formData { boundary := "B".data, streams := [] } } {}
      { boundary := "B".data, streams := [] } [] rfl rfl (by decide)).2⟩

/-- C6 counterexample: with the `method` flag off, two derivations that
differ only in the `method` supplied through the `init` argument produce
two different keys (both derivations succeed), because `getCacheKey`
spreads init fields into the hashed structure without consulting the
flags — refuting the claim for init-supplied fields. -/
theorem C6_counterexample :
    Except.isOk (getCacheKeyTs { DEFAULT_KEY_FLAGS with method := false }
      (Resource.request wReq) { method := some "GET" }) = true ∧
    Except.isOk (getCacheKeyTs { DEFAULT_KEY_FLAGS with method := false }
      (Resource.request wReq) { method := some "POST" }) = true ∧
    getCacheKeyTs { DEFAULT_KEY_FLAGS with method := false }
        (Resource.request wReq) { method := some "GET" } ≠
      getCacheKeyTs { DEFAULT_KEY_FLAGS with method := false }
        (Resource.request wReq) { method := some "POST" } := by
  set_option maxRecDepth 4000 in decide

/-- C6 (amended): for fields carried on a structured request object, a
field whose flag is off cannot influence the derived key — two requests
agreeing on every flag-on field (and agreeing on whether `headers` is
present) derive equal keys for any shared init; and toggling flags off
never introduces an error: any derivation that succeeds under the default
all-on flags succeeds under arbitrary flags.  (As the counterexample
shows, the claim's extension to fields supplied via the `init` argument
fails: init fields other than `headers` are spread into the hashed
structure unfiltered.) -/
theorem C6_flag_independence_request_fields :
    (∀ (flags : KeyFlags) (r1 r2 : ReqLike) (init : Init),
      (flags.cache = true → r1.cache = r2.cache) →
      (flags.credentials = true → r1.credentials = r2.credentials) →
      (flags.destination = true → r1.destination = r2.destination) →
      (flags.headers.truthy = true → r1.headers = r2.headers) →
      (r1.headers = none ↔ r2.headers = none) →
      (flags.integrity = true → r1.integrity = r2.integrity) →
      (flags.method = true → r1.method = r2.method) →
      (flags.redirect = true → r1.redirect = r2.redirect) →
      (flags.referrer = true → r1.referrer = r2.referrer) →
      (flags.referrerPolicy = true → r1.referrerPolicy = r2.referrerPolicy) →
      (flags.url = true → r1.url = r2.url) →
      (flags.body = true → r1.body = r2.body) →
      getCacheKeyTs flags (Resource.request r1) init =
        getCacheKeyTs flags (Resource.request r2) init) ∧
    (∀ (flags : KeyFlags) (r : ReqLike) (init : Init) (key : String),
      getCacheKeyTs DEFAULT_KEY_FLAGS (Resource.request r) init = Except.ok key →
      Except.isOk (getCacheKeyTs flags (Resource.request r) init) = true) := by
  constructor
  · intro flags r1 r2 init hcache hcred hdest hhdr hiff hint hmeth hredir href hrefp hurl hbody
    have hreqeq : getRequestCacheKey Variant.ts flags r1 =
        getRequestCacheKey Variant.ts flags r2 := by
      cases hh1 : r1.headers with
      | none =>
        have hh2 : r2.headers = none := hiff.mp hh1
        simp [getRequestCacheKey, hh1, hh2]
      | some hs1 =>
        cases hh2 : r2.headers with
        | none =>
          have : r1.headers = none := hiff.mpr hh2
          rw [hh1] at this
          cases this
        | some hs2 =>
          have hhs : (if flags.headers.truthy then
              HdrsOrStr.obj (getHeadersCacheKeyJson Variant.ts flags (objFromEntries hs1))
            else HdrsOrStr.emptyStr) =
              (if flags.headers.truthy then
              HdrsOrStr.obj (getHeadersCacheKeyJson Variant.ts flags (objFromEntries hs2))
            else HdrsOrStr.emptyStr) := by
            cases htr : flags.headers.truthy with
            | false => simp
            | true =>
              have := hhdr htr
              rw [hh1, hh2] at this
              injection this with h
              rw [h]
          have hbodyif : (if flags.body then getBodyCacheKeyJson r1.body
                else Except.ok (Body.str "")) =
              (if flags.body then getBodyCacheKeyJson r2.body
                else Except.ok (Body.str "")) := by
            cases hfb : flags.body with
            | false => simp
            | true => rw [hbody hfb]
          simp only [getRequestCacheKey, hh1, hh2]
          simp only [hhs, hbodyif,
            gateField_congr flags.cache r1.cache r2.cache hcache,
            gateField_congr flags.credentials r1.credentials r2.credentials hcred,
            gateField_congr flags.destination r1.destination r2.destination hdest,
            gateField_congr flags.integrity r1.integrity r2.integrity hint,
            gateField_congr flags.method r1.method r2.method hmeth,
            gateField_congr flags.redirect r1.redirect r2.redirect hredir,
            gateField_congr flags.referrer r1.referrer r2.referrer href,
            gateField_congr flags.referrerPolicy r1.referrerPolicy r2.referrerPolicy hrefp,
            gateField_congr flags.url r1.url r2.url hurl]
    simp [getCacheKeyTs, hreqeq]
  · intro flags r init key h
    cases hh : r.headers with
    | none => simp [getCacheKeyTs, getRequestCacheKey, hh] at h
    | some hs =>
      cases hb1 : getBodyCacheKeyJson r.body with
      | error e =>
        simp [getCacheKeyTs, getRequestCacheKey, hh, hb1, DEFAULT_KEY_FLAGS] at h
      | ok b1 =>
        cases hb2 : getBodyCacheKeyJson b1 with
        | error e =>
          simp [getCacheKeyTs, getRequestCacheKey, hh, hb1, hb2, DEFAULT_KEY_FLAGS] at h
        | ok b2 =>
          cases hb3 : getBodyCacheKeyJson (init.body.getD Body.jsUndefined) with
          | error e =>
            simp [getCacheKeyTs, getRequestCacheKey, hh, hb1, hb2, hb3, DEFAULT_KEY_FLAGS] at h
          | ok b3 =>
            cases hfb : flags.body with
            | true =>
              simp [getCacheKeyTs, getRequestCacheKey, hh, hfb, hb1, hb2, hb3, Except.isOk,
                Except.toBool]
            | false =>
              have hstr : getBodyCacheKeyJson (Body.str "") = Except.ok (Body.str "") := rfl
              simp [getCacheKeyTs, getRequestCacheKey, hh, hfb, hb3, hstr,
                Except.isOk, Except.toBool]

set_option maxRecDepth 8000 in
/-- C6 witness: the request-field independence and the no-new-error
property evaluated on concrete requests with the `method` flag off. -/
theorem C6_flag_independence_witness :
    getCacheKeyTs { DEFAULT_KEY_FLAGS with method := false }
        (Resource.request wReq) {} =
      getCacheKeyTs { DEFAULT_KEY_FLAGS with method := false }
        (Resource.request { wReq with method := some "POST" }) {} ∧
    Except.isOk (getCacheKeyTs { DEFAULT_KEY_FLAGS with method := false }
      (Resource.request wReq) {}) = true :=
  ⟨C6_flag_independence_request_fields.1 { DEFAULT_KEY_FLAGS with method := false }
      wReq { wReq with method := some "POST" } {}
      (by decide) (by decide) (by decide) (by decide) (by decide) (by decide)
      (by decide) (by decide) (by decide) (by decide) (by decide) (by decide),
   C6_flag_independence_request_fields.2 { DEFAULT_KEY_FLAGS with method := false }
      wReq {} wKeyReq (by decide)⟩

/-- C8: two multipart bodies rendering the same field content with two
different (nonempty) boundary tokens — each occurring in the rendered
strings only at its spliced positions — normalise to the same stripped
`_streams` payload, so key derivation with either body (supplied through
`init`, the path on which multipart bodies reach the digest) produces the
same cache key. -/
theorem C8_boundary_invariance (b1 b2 : List Char) (parts : List PartTemplate)
    (h1 : b1 ≠ []) (h2 : b2 ≠ [])
    (hc1 : cleanTemplate b1 parts = true) (hc2 : cleanTemplate b2 parts = true) :
    getFormDataCacheKey { boundary := b1, streams := parts.map (renderPart b1) } =
      getFormDataCacheKey { boundary := b2, streams := parts.map (renderPart b2) } ∧
    ∀ (flags : KeyFlags) (resource : Resource) (init : Init),
      getCacheKeyCjs flags resource
        { init with
          body := some (Body.formData { boundary := b1, streams := parts.map (renderPart b1) }) } =
      getCacheKeyCjs flags resource
        { init with
          body := some (Body.formData { boundary := b2, streams := parts.map (renderPart b2) }) } := by
  have hcanon : ∀ b : List Char, b ≠ [] → ∀ hc : cleanTemplate b parts = true,
      getFormDataCacheKey { boundary := b, streams := parts.map (renderPart b) } =
        parts.map (fun pt =>
          match pt with
          | PartTemplate.strT segs => StreamPart.str segs.flatten
          | PartTemplate.objT i => StreamPart.obj i) := by
    intro b hb hc
    unfold getFormDataCacheKey
    rw [List.map_map]
    refine List.map_congr_left ?_
    intro pt hpt
    cases pt with
    | strT segs =>
      have hcp : cleanPartsB b segs = true := by
        have := (List.all_eq_true.mp hc) _ hpt
        simpa using this
      simp [renderPart, stripAll_sepJoin b hb segs hcp]
    | objT i => simp [renderPart]
  have hK : getFormDataCacheKey { boundary := b1, streams := parts.map (renderPart b1) } =
      getFormDataCacheKey { boundary := b2, streams := parts.map (renderPart b2) } := by
    rw [hcanon b1 h1 hc1, hcanon b2 h2 hc2]
  refine ⟨hK, ?_⟩
  intro flags resource init
  simp [getCacheKeyCjs, getBodyCacheKeyJson, hK, initKeyJsonFields, bodyToJx]

/-- C8 witness: two concrete renderings of one part list with different
boundary tokens derive the same stripped payload and the same cache
key. -/
theorem C8_boundary_invariance_witness :
    getFormDataCacheKey
        { boundary := "XG".data,
          streams := [PartTemplate.strT ["--".data, "ct".data], PartTemplate.objT 7].map
            (renderPart "XG".data) } =
      getFormDataCacheKey
        { boundary := "QZW".data,
          streams := [PartTemplate.strT ["--".data, "ct".data], PartTemplate.objT 7].map
            (renderPart "QZW".data) } ∧
    getCacheKeyCjs DEFAULT_KEY_FLAGS (Resource.url "u")
        { body := some (Body.formData
            { boundary := "XG".data,
              streams := [PartTemplate.strT ["--".data, "ct".data], PartTemplate.objT 7].map
                (renderPart "XG".data) }) } =
      getCacheKeyCjs DEFAULT_KEY_FLAGS (Resource.url "u")
        { body := some (Body.formData
            { boundary := "QZW".data,
              streams := [PartTemplate.strT ["--".data, "ct".data], PartTemplate.objT 7].map
                (renderPart "QZW".data) }) } :=
  ⟨(C8_boundary_invariance "XG".data "QZW".data
      [PartTemplate.strT ["--".data, "ct".data], PartTemplate.objT 7]
      (by decide) (by decide) (by decide) (by decide)).1,
   (C8_boundary_invariance "XG".data "QZW".data
      [PartTemplate.strT ["--".data, "ct".data], PartTemplate.objT 7]
      (by decide) (by decide) (by decide) (by decide)).2
      DEFAULT_KEY_FLAGS (Resource.url "u") { body := some (Body.formData
            { boundary := "XG".data,
              streams := [PartTemplate.strT ["--".data, "ct".data], PartTemplate.objT 7].map
                (renderPart "XG".data) }) }⟩

end NodeFetchCache

